import Mathlib

/-!
A shallow embedding of the `sid` version-control system (src/sid/repo.py,
src/sid/index.py, src/build/lib/sid/objects.py, src/build/lib/sid/refs.py).

Modelling conventions:
* Raw file bytes are `Bytes := List Nat`.
* The SHA-1 digest (`hashlib.sha1(...).hexdigest()`) is a parameter
  `hash : Bytes → String` of every operation that hashes; theorems that
  depend on collision-freedom state it as explicit pointwise hypotheses.
* The `.sid` metadata directory is modelled by `SidState`:
  - `objects`  models the `objects/` directory (file name = oid, content =
    either raw blob bytes or a commit's canonical JSON serialization);
  - `index`    models the JSON staging index as an association list;
  - `headFile` models the content of the `HEAD` file;
  - `refs`     models every ref file under `.sid/` as an association list
    from a `.sid`-relative path string (such as "refs/heads/master",
    "refs/remotes/origin", "refs/stash/0") to its file content;
  - `workdir`  models the regular working-tree files outside `.sid`.
* Exceptions become `Except SidError`; unbounded `while o:` parent walks
  become fuel-indexed recursion, `.error .fuelExhausted` standing for
  non-termination on a cyclic graph (unreachable through the program's
  own writes).
* `json.dumps(obj, sort_keys=True)` on a commit dict is implemented
  faithfully below (sorted keys, ", "/": " separators, ensure_ascii
  escaping); `json.loads` of a stored commit is modelled as returning the
  commit structure (the store keeps commits structured, and serves their
  serialization as the raw bytes a blob read would see), while reading a
  raw blob as a commit is modelled as failure.
-/

set_option maxRecDepth 10000

abbrev Bytes := List Nat

/-- ASCII whitespace recognised by Python's default `str.strip()`
(the unicode cases are not exercised by any claim). -/
def isPyWs (c : Char) : Bool :=
  let n := c.toNat
  n = 32 || n = 9 || n = 10 || n = 13 || n = 11 || n = 12

/-- Python `str.strip()`. -/
def pyStrip (s : String) : String :=
  String.mk (((s.data.dropWhile isPyWs).reverse.dropWhile isPyWs).reverse)

/-- `s[n:]` on a Python string. -/
def strDrop (s : String) : Nat → String := fun n => String.mk (s.data.drop n)

/-- `s.startswith(p)` on a Python string. -/
def strStarts (s p : String) : Bool :=
  if s.data.take p.data.length = p.data then true else false

/-- One lowercase hex digit, as produced by `hexdigest`/`'%04x'`. -/
def hexDigitChar (n : Nat) : Char :=
  Char.ofNat (if n % 16 < 10 then 48 + n % 16 else 87 + n % 16)

/-- Four lowercase hex digits: the `\uXXXX` payload of a JSON escape. -/
def u4 (n : Nat) : String :=
  String.mk [hexDigitChar (n / 4096), hexDigitChar (n / 256),
             hexDigitChar (n / 16), hexDigitChar n]

/-- Escape one character the way `json.dumps` (default `ensure_ascii=True`)
does: `"` and `\` get a backslash, the five short control escapes are used,
other characters outside `0x20..0x7e` become `\uXXXX` (a surrogate pair
beyond the BMP). -/
def escChar (c : Char) : String :=
  let n := c.toNat
  if c = '"' then "\\\""
  else if c = '\\' then "\\\\"
  else if n = 8 then "\\b"
  else if n = 9 then "\\t"
  else if n = 10 then "\\n"
  else if n = 12 then "\\f"
  else if n = 13 then "\\r"
  else if n < 32 then "\\u" ++ u4 n
  else if n < 127 then String.singleton c
  else if n < 65536 then "\\u" ++ u4 n
  else "\\u" ++ u4 (55296 + (n - 65536) / 1024) ++ "\\u" ++ u4 (56320 + (n - 65536) % 1024)

/-- A JSON string literal as emitted by `json.dumps`. -/
def jstr (s : String) : String := "\"" ++ String.join (s.data.map escChar) ++ "\""

/-- A JSON string-or-null, for the nullable `author` and `parent` fields. -/
def jOptStr : Option String → String
  | none => "null"
  | some s => jstr s

/-- One commit object, the dict built by `Repo.commit` / `Repo.merge` /
`Repo.stash` (`parent2 = none` models the key being absent). -/
structure Commit where
  tree : List (String × String)
  parent : Option String
  parent2 : Option String
  author : Option String
  message : String
  timestamp : Nat
deriving DecidableEq

/-- Insert into a key-sorted association list (`sort_keys=True` ordering:
code-point-wise comparison of the key strings). -/
def insortKey (kv : String × String) : List (String × String) → List (String × String)
  | [] => [kv]
  | q :: rest => if kv.1 < q.1 then kv :: q :: rest else q :: insortKey kv rest

/-- Sort an association list by key, as `json.dumps(..., sort_keys=True)`
does to a dict. -/
def sortByKey (l : List (String × String)) : List (String × String) :=
  l.foldr insortKey []

/-- The serialization of the `tree` dict. -/
def jTree (tree : List (String × String)) : String :=
  "\x7b" ++ String.intercalate ", "
    ((sortByKey tree).map (fun kv => jstr kv.1 ++ ": " ++ jstr kv.2)) ++ "\x7d"

/-- `json.dumps(obj, sort_keys=True)` for a commit dict: keys in sorted
order `author, message, parent, (parent2,) timestamp, tree` with the
default `", "` and `": "` separators. -/
def serializeCommit (c : Commit) : String :=
  "\x7b\"author\": " ++ jOptStr c.author
    ++ ", \"message\": " ++ jstr c.message
    ++ ", \"parent\": " ++ jOptStr c.parent
    ++ (match c.parent2 with
        | none => ""
        | some p2 => ", \"parent2\": " ++ jstr p2)
    ++ ", \"timestamp\": " ++ toString c.timestamp
    ++ ", \"tree\": " ++ jTree c.tree ++ "\x7d"

/-- UTF-8 encoding of one character (`str.encode()`). -/
def charUtf8 (c : Char) : Bytes :=
  let n := c.toNat
  if n < 128 then [n]
  else if n < 2048 then [192 + n / 64, 128 + n % 64]
  else if n < 65536 then [224 + n / 4096, 128 + (n / 64) % 64, 128 + n % 64]
  else [240 + n / 262144, 128 + (n / 4096) % 64, 128 + (n / 64) % 64, 128 + n % 64]

/-- `str.encode()`: UTF-8 bytes of a string. -/
def strBytes (s : String) : Bytes := s.data.foldr (fun c acc => charUtf8 c ++ acc) []

/-- One stored object: the `objects/<oid>` file either holds raw blob
bytes or a commit's canonical JSON text. -/
inductive Obj where
  | blob (data : Bytes)
  | commit (c : Commit)
deriving DecidableEq

/-- The raw bytes of the `objects/<oid>` file. -/
def objBytes : Obj → Bytes
  | .blob d => d
  | .commit c => strBytes (serializeCommit c)

/-- `b'blob '`, the type tag prepended before hashing a blob. -/
def blobHeader : Bytes := [98, 108, 111, 98, 32]

/-- `b'commit '`, the type tag prepended before hashing a commit. -/
def commitHeader : Bytes := [99, 111, 109, 109, 105, 116, 32]

/-- Association-list lookup by key (first match), modelling a file lookup
in a directory or a dict `.get`. -/
def alookup {β : Type} : List (String × β) → String → Option β
  | [], _ => none
  | (k', v) :: rest, k => if k' = k then some v else alookup rest k

/-- Overwrite-or-create a file in a directory / a dict entry: replaces the
value in place when the key is present (keeping its position, as a Python
dict and a directory listing both do), appends otherwise. -/
def insertKV {β : Type} : List (String × β) → String → β → List (String × β)
  | [], k, v => [(k, v)]
  | q :: rest, k, v => if q.1 = k then (k, v) :: rest else q :: insertKV rest k v

/-- Delete a file / dict entry. -/
def eraseKey {β : Type} (m : List (String × β)) (k : String) : List (String × β) :=
  m.filter (fun kv => kv.1 ≠ k)

/-- The `objects/` directory content. -/
abbrev ObjStore := List (String × Obj)

/-- Look an object file up by name. -/
def lookupObj (objs : ObjStore) (oid : String) : Option Obj := alookup objs oid

/-- `ObjectStore.write_blob`: oid = sha1(b'blob ' + data); create the
object file only when absent. -/
def write_blob (hash : Bytes → String) (objs : ObjStore) (data : Bytes) : String × ObjStore :=
  let oid := hash (blobHeader ++ data)
  (oid, if (lookupObj objs oid).isSome then objs else (oid, .blob data) :: objs)

/-- `ObjectStore.read_blob`: the raw bytes of `objects/<oid>`
(`none` models the `FileNotFoundError` on a missing object). -/
def read_blob (objs : ObjStore) (oid : String) : Option Bytes :=
  (lookupObj objs oid).map objBytes

/-- `ObjectStore.write_commit`: oid = sha1(b'commit ' + json-dump);
create the object file only when absent. -/
def write_commit (hash : Bytes → String) (objs : ObjStore) (c : Commit) : String × ObjStore :=
  let oid := hash (commitHeader ++ strBytes (serializeCommit c))
  (oid, if (lookupObj objs oid).isSome then objs else (oid, .commit c) :: objs)

/-- `ObjectStore.read_commit`: parse `objects/<oid>` back into a commit
dict. A stored commit parses back to itself; a missing object is the
`FileNotFoundError`, and parsing raw blob bytes is modelled as failure. -/
def read_commit (objs : ObjStore) (oid : String) : Option Commit :=
  match lookupObj objs oid with
  | some (.commit c) => some c
  | _ => none

/-- Errors surfaced by the engine (the spec's taxonomy plus the raw
`FileExistsError` that `Path.mkdir` raises on an existing non-directory,
and a fuel marker standing for a non-terminating parent walk). -/
inductive SidError where
  | objectNotFound
  | pathNotFound
  | refNotFound
  | unsupportedRemoteScheme
  | unmergedBranchDelete
  | fileExists
  | fuelExhausted
deriving DecidableEq

/-- The repository state: the `.sid` metadata directory plus the working
tree, as described in the module docstring. -/
structure SidState where
  objects : ObjStore
  index : List (String × String)
  headFile : String
  refs : List (String × String)
  workdir : List (String × Bytes)
deriving DecidableEq

/-- `Repo.head_ref`: the stripped content of the `HEAD` file. -/
def head_ref (st : SidState) : String := pyStrip st.headFile

/-- `refs.read_ref` applied to a `.sid`-relative ref path: stripped file
content, with an empty result mapped to `None`. -/
def stripOpt (s : String) : Option String :=
  if pyStrip s = "" then none else some (pyStrip s)

/-- `refs.read_ref`. -/
def read_ref (st : SidState) (ref : String) : Option String :=
  match alookup st.refs ref with
  | none => none
  | some content => stripOpt content

/-- `Repo.head_oid`: resolve `HEAD` through its symbolic ref. -/
def head_oid (st : SidState) : Option String := read_ref st (head_ref st)

/-- `Repo.update_ref` / `refs.write_ref`: overwrite the ref file. -/
def update_ref (st : SidState) (ref : String) (oid : String) : SidState :=
  { st with refs := insertKV st.refs ref oid }

/-- `Index.stage`: insert or overwrite one path → oid entry
(Python dicts keep the position of an overwritten key). -/
def stage (idx : List (String × String)) (path oid : String) : List (String × String) :=
  insertKV idx path oid

/-- `Repo.add` on a single regular file (the recursive directory case is
not modelled: the flat `workdir` map only holds regular files, and no
claim stages a directory): write the blob, stage its oid. -/
def add (hash : Bytes → String) (st : SidState) (path : String) : Except SidError SidState :=
  match alookup st.workdir path with
  | none => .error .pathNotFound
  | some data =>
    let res := write_blob hash st.objects data
    .ok { st with objects := res.2, index := stage st.index path res.1 }

/-- The `Modified (unstaged)` list computed by `Repo.status`: every
working file (outside `.sid`, in directory-walk order) whose path has a
truthy staged oid that differs from the bare `sha1(data).hexdigest()`
of the file's current bytes. -/
def statusChanged (hash : Bytes → String) (st : SidState) : List String :=
  st.workdir.filterMap (fun pd =>
    match alookup st.index pd.1 with
    | some oid => if oid ≠ "" ∧ oid ≠ hash pd.2 then some pd.1 else none
    | none => none)

/-- The commit dict built by `Repo.commit` (no `parent2` key). -/
def commitObj (now : Nat) (st : SidState) (message : String) (author : Option String) : Commit :=
  { tree := st.index
    parent := head_oid st
    parent2 := none
    author := author
    message := message
    timestamp := now }

/-- The oid `Repo.commit` computes for its new commit. -/
def commitOid (hash : Bytes → String) (now : Nat) (st : SidState)
    (message : String) (author : Option String) : String :=
  hash (commitHeader ++ strBytes (serializeCommit (commitObj now st message author)))

/-- `Repo.commit`: write the commit object, advance the ref `HEAD`
points to, clear the index, return the new oid. -/
def commit (hash : Bytes → String) (now : Nat) (st : SidState)
    (message : String) (author : Option String) : String × SidState :=
  let c := commitObj now st message author
  let res := write_commit hash st.objects c
  (res.1, { st with objects := res.2
                    refs := insertKV st.refs (head_ref st) res.1
                    index := [] })

/-- The read-then-compare first-parent walk of `Repo.delete_branch`
(`o = head; while o: c = read_commit(o); if o == branch_oid: found; o =
c['parent']`): fuel-indexed, target first argument, current oid second. -/
def walkD (objs : ObjStore) : Nat → String → String → Except SidError Bool
  | 0, _, _ => .error .fuelExhausted
  | fuel + 1, target, o =>
    match read_commit objs o with
    | none => .error .objectNotFound
    | some c =>
      if o = target then .ok true
      else
        match c.parent with
        | none => .ok false
        | some p => walkD objs fuel target p

/-- The compare-then-read first-parent walk of `Repo.merge` and
`Repo.pull` (`o = target; while o: if o == head: found; o =
read_commit(o)['parent']`); the sought value is the possibly-absent
HEAD oid, and `str == None` is Python-false. -/
def walk2 (objs : ObjStore) : Nat → Option String → String → Except SidError Bool
  | 0, _, _ => .error .fuelExhausted
  | fuel + 1, sought, o =>
    if some o = sought then .ok true
    else
      match read_commit objs o with
      | none => .error .objectNotFound
      | some c =>
        match c.parent with
        | none => .ok false
        | some p => walk2 objs fuel sought p

/-- The first-parent chain a walk starting at `o` can examine within
`fuel` steps: `o`, `parent(o)`, `parent(parent(o))`, ... (it never
follows `parent2`). -/
def fpChain (objs : ObjStore) : Nat → String → List String
  | 0, _ => []
  | fuel + 1, o =>
    o :: (match read_commit objs o with
          | some c =>
            (match c.parent with
             | some p => fpChain objs fuel p
             | none => [])
          | none => [])

/-- Reachability that follows both `parent` and `parent2` links — the
graph-theoretic ancestor relation the first-parent walk under-detects. -/
def reach2 (objs : ObjStore) : Nat → String → String → Bool
  | 0, _, _ => false
  | fuel + 1, target, o =>
    if o = target then true
    else
      match read_commit objs o with
      | none => false
      | some c =>
        (match c.parent with
         | some p => reach2 objs fuel target p
         | none => false) ||
        (match c.parent2 with
         | some p => reach2 objs fuel target p
         | none => false)

/-- `Repo.delete_branch`: refuse (unless forced) when the branch tip is
non-empty, HEAD resolves to a different commit, and the first-parent walk
from HEAD does not meet the tip; otherwise unlink the ref file. -/
def delete_branch (st : SidState) (name : String) (force : Bool) (fuel : Nat) :
    Except SidError SidState :=
  match alookup st.refs ("refs/heads/" ++ name) with
  | none => .error .refNotFound
  | some content =>
    let deleted : SidState := { st with refs := eraseKey st.refs ("refs/heads/" ++ name) }
    if force then .ok deleted
    else
      match stripOpt content, head_oid st with
      | some b, some h =>
        if b = h then .ok deleted
        else
          match walkD st.objects fuel b h with
          | .error e => .error e
          | .ok true => .ok deleted
          | .ok false => .error .unmergedBranchDelete
      | _, _ => .ok deleted

/-- The merge commit dict built by `Repo.merge` in the
non-fast-forward case. -/
def mergeCommit (now : Nat) (st : SidState) (branch target : String) : Commit :=
  { tree := st.index
    parent := head_oid st
    parent2 := some target
    author := none
    message := "Merge branch " ++ branch ++ " into " ++ head_ref st
    timestamp := now }

/-- The oid of that merge commit. -/
def mergeOid (hash : Bytes → String) (now : Nat) (st : SidState) (branch target : String) : String :=
  hash (commitHeader ++ strBytes (serializeCommit (mergeCommit now st branch target)))

/-- `Repo.merge`: missing branch ref fails; an empty tip is a no-op; a
fast-forward (HEAD found on the tip's first-parent chain) moves the
current ref to the tip; otherwise a two-parent merge commit whose tree is
the current index snapshot is written and the current ref advanced. -/
def merge (hash : Bytes → String) (now : Nat) (fuel : Nat) (st : SidState) (branch : String) :
    Except SidError SidState :=
  match alookup st.refs ("refs/heads/" ++ branch) with
  | none => .error .refNotFound
  | some content =>
    match stripOpt content with
    | none => .ok st
    | some target =>
      match walk2 st.objects fuel (head_oid st) target with
      | .error e => .error e
      | .ok true => .ok (update_ref st (head_ref st) target)
      | .ok false =>
        let res := write_commit hash st.objects (mergeCommit now st branch target)
        .ok { st with objects := res.2
                      refs := insertKV st.refs (head_ref st) res.1 }

/-- The stash-slot ref path for slot `n` (`refs/stash/<n>`). -/
def stashKey (n : Nat) : String := "refs/stash/" ++ toString n

/-- The blob-snapshot fold of `Repo.stash`: write every working file into
the object store, accumulating the `tree` mapping in directory-walk
order. Returns (tree, objects-after). -/
def snapWd (hash : Bytes → String) (objs : ObjStore) :
    List (String × Bytes) → List (String × String) × ObjStore
  | [] => ([], objs)
  | (rel, data) :: rest =>
    let res := write_blob hash objs data
    let tail := snapWd hash res.2 rest
    ((rel, res.1) :: tail.1, tail.2)

/-- The commit-shaped object `Repo.stash` writes (no parent, fixed
`'WIP stash'` message). -/
def stashCommit (hash : Bytes → String) (now : Nat) (st : SidState) : Commit :=
  { tree := (snapWd hash st.objects st.workdir).1
    parent := none
    parent2 := none
    author := none
    message := "WIP stash"
    timestamp := now }

/-- The oid of that stash snapshot commit. -/
def stashOid (hash : Bytes → String) (now : Nat) (st : SidState) : String :=
  hash (commitHeader ++ strBytes (serializeCommit (stashCommit hash now st)))

/-- `i = 0; while (stash_dir / str(i)).exists(): i += 1` — the least slot
number whose ref file is absent. The probe range `0..refs.length` always
contains a free slot when ref keys are distinct; the `getD` fallback only
pads totality. -/
def freeSlot (refs : List (String × String)) : Nat :=
  (((List.range (refs.length + 1)).find?
      (fun i => (alookup refs (stashKey i)).isNone)).getD (refs.length + 1))

/-- `Repo.stash`: snapshot every working file into fresh blobs, wrap them
in a parentless commit, and write its oid to the first free numbered
stash slot. -/
def stash (hash : Bytes → String) (now : Nat) (st : SidState) : SidState :=
  let snap := snapWd hash st.objects st.workdir
  let res := write_commit hash snap.2 (stashCommit hash now st)
  { st with objects := res.2
            refs := insertKV st.refs (stashKey (freeSlot st.refs)) res.1 }

/-- `int(name)` on a stash slot file name: an all-digit name parses to
its decimal value (the sign/whitespace forms `int` also accepts never
arise, since slots are only ever created as `str(i)`). -/
def parseNat? (s : String) : Option Nat :=
  if s.data ≠ [] ∧ s.data.all (fun c => 48 ≤ c.toNat ∧ c.toNat ≤ 57) then
    some (s.data.foldl (fun n c => n * 10 + (c.toNat - 48)) 0)
  else none

/-- The numbered stash slots: every ref file directly under `refs/stash/`
whose name parses as a number, as (number, full key, content).
`sorted(..., key=int)` would raise on a non-numeric slot name; such names
are unreachable (slots are only ever created as `str(i)`) and are skipped
here. -/
def stashSlots (refs : List (String × String)) : List (Nat × String × String) :=
  refs.filterMap (fun kv =>
    if kv.1.data.take 11 = "refs/stash/".data then
      (parseNat? (String.mk (kv.1.data.drop 11))).map (fun n => (n, kv.1, kv.2))
    else none)

/-- `sorted(items, key=int)[-1]`: the slot with the largest number
(on a tie, stable sort puts the later directory entry last). -/
def maxSlot : List (Nat × String × String) → Option (Nat × String × String)
  | [] => none
  | p :: rest =>
    match maxSlot rest with
    | none => some p
    | some q => some (if q.1 ≥ p.1 then q else p)

/-- Materialize a commit tree onto the working area, in tree order:
`dest.write_bytes(read_blob(blob))` for each entry, failing on a missing
blob object, never deleting other files. -/
def applyTree (objs : ObjStore) (wd : List (String × Bytes)) :
    List (String × String) → Except SidError (List (String × Bytes))
  | [] => .ok wd
  | (rel, blob) :: rest =>
    match read_blob objs blob with
    | none => .error .objectNotFound
    | some data => applyTree objs (insertKV wd rel data) rest

/-- `Repo.stash_pop`: no slots is a printed no-op; otherwise read the
highest-numbered slot's commit, write its tree out over the working area,
and unlink that slot file. -/
def stash_pop (st : SidState) : Except SidError SidState :=
  match maxSlot (stashSlots st.refs) with
  | none => .ok st
  | some slot =>
    let oid := pyStrip slot.2.2
    match read_commit st.objects oid with
    | none => .error .objectNotFound
    | some c =>
      match applyTree st.objects st.workdir c.tree with
      | .error e => .error e
      | .ok wd' => .ok { st with workdir := wd', refs := eraseKey st.refs slot.2.1 }

/-- A remote repository's on-disk `.sid` content, as `Repo.fetch` reads
it: its `objects/` directory and its `refs/heads/` directory. -/
structure RemoteRepo where
  objects : ObjStore
  heads : List (String × String)
deriving DecidableEq

/-- The reachable filesystem outside this repository: resolved path
string → the `.sid` metadata found there (path resolution is modelled as
identity on the path string). -/
abbrev World := List (String × RemoteRepo)

/-- `Repo.remote_add`: write the connection string into the file
`refs/remotes/<name>`. -/
def remote_add (st : SidState) (name url : String) : SidState :=
  { st with refs := insertKV st.refs ("refs/remotes/" ++ name) url }

/-- The object-copy loop of fetch: copy each remote object file absent
locally. -/
def copyMissing (src : ObjStore) (dst : ObjStore) : ObjStore :=
  src.foldl (fun acc f =>
    if (lookupObj acc f.1).isSome then acc else acc ++ [f]) dst

/-- `Repo.fetch`: read the URL from the ref file `refs/remotes/<remote>`,
accept only `file://`, require the remote `.sid`, copy missing objects,
then create `refs/remotes/<remote>/heads/` and mirror the remote branch
heads into it.

`dst_heads.parent.mkdir(parents=True, exist_ok=True)` targets exactly the
path `refs/remotes/<remote>`; `Path.mkdir` raises `FileExistsError` when
its target exists as a non-directory, and that path is an existing file —
the very file whose content was just read as the URL. The guard below
states that condition (a file present at `refs/remotes/<remote>`)
explicitly; the mirroring branch after it is what the code would do had
the directory been creatable. The objects already copied stay on disk in
the source; the `Except` model simply reports the raised error. -/
def fetch (world : World) (st : SidState) (remote : String) : Except SidError SidState :=
  match alookup st.refs ("refs/remotes/" ++ remote) with
  | none => .error .refNotFound
  | some rawUrl =>
    let url := pyStrip rawUrl
    if strStarts url "file://" = false then .error .unsupportedRemoteScheme
    else
      match alookup world (strDrop url 7) with
      | none => .error .pathNotFound
      | some r =>
        let objs' := copyMissing r.objects st.objects
        if (alookup st.refs ("refs/remotes/" ++ remote)).isSome then .error .fileExists
        else
          .ok { st with
                objects := objs'
                refs := r.heads.foldl
                  (fun acc f =>
                    insertKV acc ("refs/remotes/" ++ remote ++ "/heads/" ++ f.1) f.2)
                  st.refs }

/-- A concrete executable stand-in digest used only to instantiate
witnesses: the lowercase hex rendering of the byte list. Nothing below
assumes anything about it beyond what `decide` verifies pointwise. -/
def demoHash (b : Bytes) : String :=
  String.mk (b.foldr (fun n acc => hexDigitChar (n / 16) :: hexDigitChar n :: acc) [])

/-- A three-commit graph in which `A` is reachable from `M` only through
the `parent2` link: `M.parent = B`, `M.parent2 = A`, and `A`, `B` are
roots. -/
def c4Objs : ObjStore :=
  [("A", .commit { tree := [], parent := none, parent2 := none,
                   author := none, message := "a", timestamp := 0 }),
   ("B", .commit { tree := [], parent := none, parent2 := none,
                   author := none, message := "b", timestamp := 1 }),
   ("M", .commit { tree := [], parent := some "B", parent2 := some "A",
                   author := none, message := "m", timestamp := 2 })]

/-- A remote repository used by the fetch counterexample. -/
def c1Remote : RemoteRepo :=
  { objects := [("o1", .blob [49])], heads := [("master", "o1")] }

/-- The filesystem outside the repository for the fetch counterexample. -/
def c1World : World := [("/remote", c1Remote)]

/-- A freshly initialised repository (what `Repo.init` leaves behind):
`HEAD` points at `refs/heads/master`, no refs, nothing staged. -/
def c1Base : SidState :=
  { objects := [], index := [], headFile := "refs/heads/master", refs := [], workdir := [] }

/-- Status witness state: `a.txt` staged via `write_blob` and unchanged
on disk. -/
def c2State : SidState :=
  { objects := [], index := [("a.txt", demoHash (blobHeader ++ [104, 105]))],
    headFile := "refs/heads/master", refs := [],
    workdir := [("a.txt", [104, 105])] }

/-- Branch-delete counterexample state: HEAD is the unborn branch
`ghost` (exactly what `Repo.checkout` of a nonexistent branch leaves
behind), while branch `feature` is non-empty. -/
def c3State : SidState :=
  { objects := [], index := [], headFile := "refs/heads/ghost",
    refs := [("refs/heads/feature", "abc")], workdir := [] }

/-- Branch-delete witness state: `master` (= HEAD) and `feature` point at
two unrelated root commits. -/
def c3WState : SidState :=
  { objects := [("Ac", .commit { tree := [], parent := none, parent2 := none,
                                 author := none, message := "a", timestamp := 0 }),
                ("Bc", .commit { tree := [], parent := none, parent2 := none,
                                 author := none, message := "b", timestamp := 1 })],
    index := [], headFile := "refs/heads/master",
    refs := [("refs/heads/master", "Ac"), ("refs/heads/feature", "Bc")], workdir := [] }

/-- Fast-forward witness: branch `A` at `X`, branch `B` at `Y` with
`Y.parent = X`, HEAD on `A`. -/
def c5State : SidState :=
  { objects := [("X", .commit { tree := [("a.txt", "ba")], parent := none, parent2 := none,
                                author := none, message := "base", timestamp := 1 }),
                ("Y", .commit { tree := [("a.txt", "bb")], parent := some "X", parent2 := none,
                                author := none, message := "feat", timestamp := 2 })],
    index := [], headFile := "refs/heads/A",
    refs := [("refs/heads/A", "X"), ("refs/heads/B", "Y")], workdir := [] }

/-- Divergent-branch witness: `A` at `Y` (HEAD) and `B` at `Z`, both
children of root `X`; one file staged. -/
def c6State : SidState :=
  { objects := [("X", .commit { tree := [], parent := none, parent2 := none,
                                author := none, message := "root", timestamp := 0 }),
                ("Y", .commit { tree := [], parent := some "X", parent2 := none,
                                author := none, message := "ours", timestamp := 1 }),
                ("Z", .commit { tree := [], parent := some "X", parent2 := none,
                                author := none, message := "theirs", timestamp := 2 })],
    index := [("f.txt", "b1")], headFile := "refs/heads/A",
    refs := [("refs/heads/A", "Y"), ("refs/heads/B", "Z")], workdir := [] }

/-- Commit-chain witness state: one file staged on an unborn master. -/
def c7State : SidState :=
  { objects := [], index := [("a.txt", "aa")], headFile := "refs/heads/master",
    refs := [], workdir := [] }

/-- The commit whose serialization is the shared payload of the
content-addressing witness. -/
def c8C : Commit :=
  { tree := [], parent := none, parent2 := none, author := none,
    message := "", timestamp := 0 }

/-- Stash witness state: one working file, nothing else. -/
def c10State : SidState :=
  { objects := [], index := [], headFile := "refs/heads/master", refs := [],
    workdir := [("x.txt", [50])] }

theorem alookup_none_forall {β : Type} {m : List (String × β)} {k : String}
    (h : alookup m k = none) : ∀ kv ∈ m, kv.1 ≠ k := by
  induction m with
  | nil => intro kv hkv; cases hkv
  | cons q rest ih =>
    intro kv hkv
    simp only [alookup] at h
    by_cases hq : q.1 = k
    · rw [if_pos hq] at h; cases h
    · rw [if_neg hq] at h
      rcases List.mem_cons.mp hkv with he | hm
      · rw [he]; exact hq
      · exact ih h kv hm

theorem mem_of_alookup {β : Type} {m : List (String × β)} {k : String} {v : β}
    (h : alookup m k = some v) : (k, v) ∈ m := by
  induction m with
  | nil => cases h
  | cons q rest ih =>
    obtain ⟨a, b⟩ := q
    simp only [alookup] at h
    by_cases hq : a = k
    · rw [if_pos hq] at h
      injection h with h
      subst hq; subst h
      exact List.mem_cons_self _ _
    · rw [if_neg hq] at h
      exact List.mem_cons_of_mem _ (ih h)

theorem alookup_of_mem_nodup {β : Type} {m : List (String × β)} {k : String} {v : β}
    (hnd : (m.map Prod.fst).Nodup) (hm : (k, v) ∈ m) : alookup m k = some v := by
  induction m with
  | nil => cases hm
  | cons q rest ih =>
    simp only [List.map_cons, List.nodup_cons] at hnd
    rcases List.mem_cons.mp hm with he | hmm
    · rw [← he]; simp [alookup]
    · have hq : q.1 ≠ k := by
        intro he2
        exact hnd.1 (he2 ▸ (List.mem_map.mpr ⟨(k, v), hmm, rfl⟩))
      simp only [alookup, if_neg hq]
      exact ih hnd.2 hmm

theorem alookup_insertKV {β : Type} (m : List (String × β)) (k : String) (v : β) (p : String) :
    alookup (insertKV m k v) p = if k = p then some v else alookup m p := by
  induction m with
  | nil => simp [insertKV, alookup]
  | cons q rest ih =>
    obtain ⟨a, b⟩ := q
    simp only [insertKV]
    by_cases hq : a = k
    · rw [if_pos hq]
      simp only [alookup]
      by_cases hp : k = p
      · rw [if_pos hp, if_pos hp]
      · rw [if_neg hp, if_neg hp, if_neg (fun he => hp (hq ▸ he) : ¬ a = p)]
    · rw [if_neg hq]
      simp only [alookup]
      by_cases hp : a = p
      · have hkp : ¬ k = p := fun he => hq (hp ▸ he ▸ rfl)
        rw [if_pos hp, if_pos hp, if_neg hkp]
      · rw [if_neg hp, if_neg hp, ih]

theorem insertKV_of_mem {β : Type} {m : List (String × β)} {k : String} {v : β}
    (h : alookup m k = some v) : ∀ p, alookup (insertKV m k v) p = alookup m p := by
  intro p
  rw [alookup_insertKV]
  by_cases hp : k = p
  · rw [if_pos hp, ← hp, h]
  · rw [if_neg hp]

theorem insertKV_of_none {β : Type} {m : List (String × β)} {k : String} (v : β)
    (h : alookup m k = none) : insertKV m k v = m ++ [(k, v)] := by
  induction m with
  | nil => rfl
  | cons q rest ih =>
    simp only [alookup] at h
    by_cases hq : q.1 = k
    · rw [if_pos hq] at h; cases h
    · rw [if_neg hq] at h
      simp only [insertKV, if_neg hq, List.cons_append]
      rw [ih h]

theorem eraseKey_append_self {β : Type} {m : List (String × β)} {k : String} (v : β)
    (h : alookup m k = none) : eraseKey (m ++ [(k, v)]) k = m := by
  unfold eraseKey
  rw [List.filter_append]
  have h2 : List.filter (fun kv => decide (kv.1 ≠ k)) [(k, v)] = [] := by simp
  rw [h2, List.append_nil, List.filter_eq_self]
  intro kv hkv
  simpa using alookup_none_forall h kv hkv

theorem walkD_ok_iff (objs : ObjStore) (target : String) :
    ∀ (fuel : Nat) (o : String) (r : Bool),
      walkD objs fuel target o = .ok r → (r = true ↔ target ∈ fpChain objs fuel o) := by
  intro fuel
  induction fuel with
  | zero => intro o r h; cases h
  | succ n ih =>
    intro o r h
    cases hr : read_commit objs o with
    | none => simp only [walkD, hr] at h; cases h
    | some c =>
      simp only [walkD, hr] at h
      simp only [fpChain, hr]
      by_cases ho : o = target
      · rw [if_pos ho] at h
        injection h with h
        subst h
        simp [ho]
      · rw [if_neg ho] at h
        have hne : ¬ target = o := fun he => ho he.symm
        cases hp : c.parent with
        | none =>
          rw [hp] at h
          injection h with h
          subst h
          simp [hne, hp]
        | some p =>
          rw [hp] at h
          simp only [hp, List.mem_cons]
          constructor
          · intro hrt
            exact Or.inr ((ih p r h).mp hrt)
          · intro hmem
            rcases hmem with he | hm
            · exact absurd he hne
            · exact (ih p r h).mpr hm

theorem walk2_ok_iff (objs : ObjStore) (target : String) :
    ∀ (fuel : Nat) (o : String) (r : Bool),
      walk2 objs fuel (some target) o = .ok r → (r = true ↔ target ∈ fpChain objs fuel o) := by
  intro fuel
  induction fuel with
  | zero => intro o r h; cases h
  | succ n ih =>
    intro o r h
    simp only [walk2] at h
    by_cases ho : o = target
    · rw [if_pos (by rw [ho] : some o = some target)] at h
      injection h with h
      subst h
      simp [fpChain, ho]
    · rw [if_neg (fun he => ho (Option.some_injective _ he))] at h
      have hne : ¬ target = o := fun he => ho he.symm
      cases hr : read_commit objs o with
      | none => simp only [hr] at h; cases h
      | some c =>
        simp only [hr] at h
        simp only [fpChain, hr]
        cases hp : c.parent with
        | none =>
          simp only [hp] at h
          injection h with h
          subst h
          simp [hne, hp]
        | some p =>
          simp only [hp] at h
          simp only [hp, List.mem_cons]
          constructor
          · intro hrt
            exact Or.inr ((ih p r h).mp hrt)
          · intro hmem
            rcases hmem with he | hm
            · exact absurd he hne
            · exact (ih p r h).mpr hm


/-- C9: Blob round trip — for all byte sequences `b`, reading back the
blob just written returns exactly `b` (stated for any starting store in
which the computed oid is either free or already holds this very blob,
i.e. the digest has not collided at that point). -/
theorem c9_blob_round_trip (hash : Bytes → String) (objs : ObjStore) (b : Bytes)
    (hfree : lookupObj objs (hash (blobHeader ++ b)) = none ∨
             lookupObj objs (hash (blobHeader ++ b)) = some (.blob b)) :
    read_blob (write_blob hash objs b).2 (write_blob hash objs b).1 = some b := by
  rcases hfree with h | h
  · have h2 : alookup objs (hash (blobHeader ++ b)) = none := h
    simp [write_blob, read_blob, h2, lookupObj, alookup, objBytes]
  · have h2 : alookup objs (hash (blobHeader ++ b)) = some (.blob b) := h
    simp [write_blob, read_blob, h2, lookupObj, objBytes]

/-- C9 witness: the round trip evaluated at the byte sequence `[104]` on
an empty store. -/
theorem c9_blob_round_trip_witness :
    lookupObj [] (demoHash (blobHeader ++ [104])) = none ∧
    read_blob (write_blob demoHash [] [104]).2 (write_blob demoHash [] [104]).1 = some [104] :=
  ⟨rfl, c9_blob_round_trip demoHash [] [104] (Or.inl rfl)⟩

/-- C8: Content addressing — writing the same bytes twice returns the
same oid and leaves the store of the first write unchanged; and for a
commit whose serialized payload is byte-identical to a blob payload, the
two writes return different oids, because the type tags make the hashed
inputs differ (the hypothesis only states that the digest does not
collide on the two distinct tagged inputs). -/
theorem c8_content_addressing (hash : Bytes → String) (objs : ObjStore) (b p : Bytes) (c : Commit)
    (hser : strBytes (serializeCommit c) = p)
    (hcol : blobHeader ++ p ≠ commitHeader ++ p →
            hash (blobHeader ++ p) ≠ hash (commitHeader ++ p)) :
    ((write_blob hash (write_blob hash objs b).2 b).1 = (write_blob hash objs b).1 ∧
     (write_blob hash (write_blob hash objs b).2 b).2 = (write_blob hash objs b).2) ∧
    (write_blob hash objs p).1 ≠ (write_commit hash objs c).1 := by
  constructor
  · constructor
    · rfl
    · show (if (lookupObj (write_blob hash objs b).2 (hash (blobHeader ++ b))).isSome
            then (write_blob hash objs b).2
            else (hash (blobHeader ++ b), Obj.blob b) :: (write_blob hash objs b).2) =
        (write_blob hash objs b).2
      have hs : (lookupObj (write_blob hash objs b).2 (hash (blobHeader ++ b))).isSome = true := by
        unfold write_blob lookupObj
        cases h0 : (alookup objs (hash (blobHeader ++ b))).isSome with
        | true => simp [h0]
        | false => simp [h0, alookup]
      rw [if_pos hs]
  · show hash (blobHeader ++ p) ≠ hash (commitHeader ++ strBytes (serializeCommit c))
    rw [hser]
    apply hcol
    intro he
    have h2 := congrArg (fun l => l.headD 0) he
    simp [blobHeader, commitHeader] at h2

/-- C8 witness: the dedup and tag-separation facts evaluated with the
demo digest on an empty store, the blob payload being exactly the
serialization of `c8C`. -/
theorem c8_content_addressing_witness :
    strBytes (serializeCommit c8C) = strBytes (serializeCommit c8C) ∧
    ((write_blob demoHash (write_blob demoHash [] [55]).2 [55]).1 = (write_blob demoHash [] [55]).1 ∧
     (write_blob demoHash (write_blob demoHash [] [55]).2 [55]).2 = (write_blob demoHash [] [55]).2) ∧
    (write_blob demoHash [] (strBytes (serializeCommit c8C))).1 ≠ (write_commit demoHash [] c8C).1 :=
  ⟨rfl, c8_content_addressing demoHash [] [55] (strBytes (serializeCommit c8C)) c8C rfl
    (fun _ => by decide)⟩

/-- C2: The `Modified (unstaged)` list contains a path exactly when a
working file exists at it, the staging index holds a (truthy) oid for it,
and the bare `sha1` of the working bytes differs from that staged oid; in
particular, a working file whose bytes equal the staged bytes (so the
staged oid is the digest of the tagged input `b'blob ' + data`) is still
listed whenever the digest does not collide between the tagged and
untagged inputs. -/
theorem c2_status_modified (hash : Bytes → String) (st : SidState) (rel : String)
    (hnd : (st.workdir.map Prod.fst).Nodup) :
    (rel ∈ statusChanged hash st ↔
      ∃ data oid, alookup st.workdir rel = some data ∧ alookup st.index rel = some oid ∧
        oid ≠ "" ∧ oid ≠ hash data) ∧
    (∀ data, alookup st.workdir rel = some data →
      alookup st.index rel = some (hash (blobHeader ++ data)) →
      hash (blobHeader ++ data) ≠ "" →
      hash data ≠ hash (blobHeader ++ data) →
      rel ∈ statusChanged hash st) := by
  have hiff : rel ∈ statusChanged hash st ↔
      ∃ data oid, alookup st.workdir rel = some data ∧ alookup st.index rel = some oid ∧
        oid ≠ "" ∧ oid ≠ hash data := by
    unfold statusChanged
    rw [List.mem_filterMap]
    constructor
    · rintro ⟨⟨prel, pdata⟩, hpd, hf⟩
      rcases hoid : alookup st.index prel with _ | oid
      · simp only [hoid] at hf; cases hf
      · simp only [hoid] at hf
        by_cases hc : oid ≠ "" ∧ oid ≠ hash pdata
        · rw [if_pos hc] at hf
          injection hf with hf
          subst hf
          exact ⟨pdata, oid, alookup_of_mem_nodup hnd hpd, hoid, hc.1, hc.2⟩
        · rw [if_neg hc] at hf; cases hf
    · rintro ⟨data, oid, hw, hi, h1, h2⟩
      refine ⟨(rel, data), mem_of_alookup hw, ?_⟩
      simp only [hi]
      rw [if_pos ⟨h1, h2⟩]
  refine ⟨hiff, fun data hw hi h1 h2 => hiff.mpr ⟨data, hash (blobHeader ++ data), hw, hi, h1, Ne.symm h2⟩⟩

/-- C2 witness: a file staged through `write_blob` and byte-identical on
disk is nevertheless reported as modified. -/
theorem c2_status_modified_witness :
    (c2State.workdir.map Prod.fst).Nodup ∧ "a.txt" ∈ statusChanged demoHash c2State :=
  ⟨by decide, (c2_status_modified demoHash c2State "a.txt" (by decide)).2 [104, 105]
    rfl rfl (by decide) (by decide)⟩

/-- C4: Both first-parent walks (the read-then-compare one used by
branch-delete safety and the compare-then-read one used by merge
fast-forward detection and pull) find a target exactly when it lies on
the chain `b, parent(b), parent(parent(b)), ...`; and on the concrete
graph `c4Objs`, commit `A` is reachable from `M` through `parent2` yet
both walks report it unreachable. -/
theorem c4_first_parent_walk (objs : ObjStore) (fuel : Nat) (t o : String) (r r' : Bool)
    (h1 : walkD objs fuel t o = .ok r) (h2 : walk2 objs fuel (some t) o = .ok r') :
    (r = true ↔ t ∈ fpChain objs fuel o) ∧
    (r' = true ↔ t ∈ fpChain objs fuel o) ∧
    (reach2 c4Objs 5 "A" "M" = true ∧
     walkD c4Objs 5 "A" "M" = .ok false ∧
     walk2 c4Objs 5 (some "A") "M" = .ok false) :=
  ⟨walkD_ok_iff objs t fuel o r h1, walk2_ok_iff objs t fuel o r' h2, rfl, rfl, rfl⟩

/-- C4 witness: both walks on the `c4Objs` graph, starting at `M` and
seeking `A`, complete with `false`. -/
theorem c4_first_parent_walk_witness :
    (false = true ↔ "A" ∈ fpChain c4Objs 5 "M") ∧
    (false = true ↔ "A" ∈ fpChain c4Objs 5 "M") ∧
    (reach2 c4Objs 5 "A" "M" = true ∧
     walkD c4Objs 5 "A" "M" = .ok false ∧
     walk2 c4Objs 5 (some "A") "M" = .ok false) :=
  c4_first_parent_walk c4Objs 5 "A" "M" false false rfl rfl

/-- C5: Fast-forward merge — when the HEAD oid is found on the target
tip's first-parent chain, `merge` only moves the ref HEAD points to onto
the tip: the object store, the index and the working tree are unchanged
(no new commit object is written). -/
theorem c5_fast_forward (hash : Bytes → String) (now fuel : Nat) (st : SidState)
    (branch content target : String)
    (href : alookup st.refs ("refs/heads/" ++ branch) = some content)
    (ht : stripOpt content = some target)
    (hwalk : walk2 st.objects fuel (head_oid st) target = .ok true) :
    merge hash now fuel st branch =
      .ok { st with refs := insertKV st.refs (head_ref st) target } := by
  unfold merge
  simp only [href, ht, hwalk]
  rfl

/-- C5 witness: the spec's concrete scenario — branch `A` at `X`, branch
`B` one commit ahead at `Y` (`Y.parent = X`), HEAD on `A`; merging `B`
sets `A`'s ref to `Y` with the object store untouched. -/
theorem c5_fast_forward_witness :
    merge demoHash 9 5 c5State "B" =
      .ok { c5State with refs := insertKV c5State.refs (head_ref c5State) "Y" } :=
  c5_fast_forward demoHash 9 5 c5State "B" "Y" "Y" rfl rfl rfl

/-- C1: `Repo.fetch` on a remote configured by `Repo.remote_add` with a
well-formed `file://` URL pointing at an existing remote metadata root
raises `FileExistsError` instead of succeeding: the remote-tracking
directory it tries to create, `refs/remotes/<remote>` (the parent of
`.../heads`), is the very file `remote_add` wrote the URL into, and
`Path.mkdir(parents=True, exist_ok=True)` raises on an existing
non-directory. Stated at the concrete failing input. -/
theorem c1_fetch_fileexists :
    fetch c1World (remote_add c1Base "origin" "file:///remote") "origin" = .error .fileExists ∧
    alookup (remote_add c1Base "origin" "file:///remote").refs "refs/remotes/origin" =
      some "file:///remote" :=
  ⟨rfl, rfl⟩

theorem walkD_ne_unmerged (objs : ObjStore) :
    ∀ (fuel : Nat) (t o : String), walkD objs fuel t o ≠ .error .unmergedBranchDelete := by
  intro fuel
  induction fuel with
  | zero => intro t o h; cases h
  | succ n ih =>
    intro t o h
    simp only [walkD] at h
    cases hr : read_commit objs o with
    | none => simp only [hr] at h; cases h
    | some c =>
      simp only [hr] at h
      by_cases ho : o = t
      · rw [if_pos ho] at h; cases h
      · rw [if_neg ho] at h
        cases hp : c.parent with
        | none => simp only [hp] at h; cases h
        | some p => simp only [hp] at h; exact ih t p h

/-- C3 counterexample: in a state where HEAD names the unborn branch
`ghost` (so no commit is reachable from HEAD) while branch `feature` has
the non-empty tip "abc", `delete_branch feature` (unforced) succeeds and
removes the ref instead of failing with the unmerged-branch error. -/
theorem c3_counterexample :
    delete_branch c3State "feature" false 9 = .ok { c3State with refs := [] } ∧
    alookup c3State.refs "refs/heads/feature" = some "abc" ∧
    stripOpt "abc" = some "abc" ∧
    head_oid c3State = none :=
  ⟨rfl, rfl, rfl, rfl⟩

/-- C3 (amended): for an existing branch ref, unforced `delete_branch`
fails with the unmerged-branch error exactly when the branch tip is
non-empty, HEAD resolves to a (different) commit, and the first-parent
walk from the HEAD commit completes without meeting the tip; whenever it
does not fail, the ref file is removed (in particular an unborn HEAD
deletes without any check). -/
theorem c3_delete_branch (st : SidState) (name content : String) (fuel : Nat)
    (href : alookup st.refs ("refs/heads/" ++ name) = some content) :
    (delete_branch st name false fuel = .error .unmergedBranchDelete ↔
      (∃ b h, stripOpt content = some b ∧ head_oid st = some h ∧ b ≠ h ∧
        walkD st.objects fuel b h = .ok false)) ∧
    (∀ st', delete_branch st name false fuel = .ok st' →
      st' = { st with refs := eraseKey st.refs ("refs/heads/" ++ name) }) := by
  unfold delete_branch
  simp only [href, if_neg (by exact Bool.false_ne_true : ¬ (false = true))]
  cases hb : stripOpt content with
  | none =>
    simp only []
    constructor
    · constructor
      · intro he; simp at he
      · rintro ⟨b, h, hbb, _, _, _⟩; cases hbb
    · intro st' hst; injection hst with hst; exact hst.symm
  | some b =>
    cases hh : head_oid st with
    | none =>
      simp only []
      constructor
      · constructor
        · intro he; simp at he
        · rintro ⟨b', h', _, hhh, _, _⟩; cases hhh
      · intro st' hst; injection hst with hst; exact hst.symm
    | some h =>
      simp only []
      by_cases hbh : b = h
      · rw [if_pos hbh]
        constructor
        · constructor
          · intro he; simp at he
          · rintro ⟨b', h', hbb, hhh, hne, _⟩
            injection hbb with hbb
            injection hhh with hhh
            exact absurd (hbb ▸ hhh ▸ hbh) hne
        · intro st' hst; injection hst with hst; exact hst.symm
      · rw [if_neg hbh]
        cases hw : walkD st.objects fuel b h with
        | error e =>
          simp only []
          constructor
          · constructor
            · intro he
              injection he with he
              exact absurd (he ▸ hw) (walkD_ne_unmerged st.objects fuel b h)
            · rintro ⟨b', h', hbb, hhh, _, hw'⟩
              injection hbb with hbb
              injection hhh with hhh
              rw [← hbb, ← hhh, hw] at hw'
              cases hw'
          · intro st' hst; cases hst
        | ok v =>
          cases v with
          | true =>
            simp only []
            constructor
            · constructor
              · intro he; simp at he
              · rintro ⟨b', h', hbb, hhh, _, hw'⟩
                injection hbb with hbb
                injection hhh with hhh
                rw [← hbb, ← hhh, hw] at hw'
                injection hw' with hw'
                cases hw'
            · intro st' hst; injection hst with hst; exact hst.symm
          | false =>
            simp only []
            constructor
            · constructor
              · intro _
                exact ⟨b, h, rfl, rfl, hbh, hw⟩
              · intro _; trivial
            · intro st' hst; cases hst

/-- C3 witness for the amended statement: two unrelated root commits on
`master` (HEAD) and `feature`; the unforced delete fails with the
unmerged-branch error, matching the iff. -/
theorem c3_delete_branch_witness :
    (delete_branch c3WState "feature" false 3 = .error .unmergedBranchDelete ↔
      (∃ b h, stripOpt "Bc" = some b ∧ head_oid c3WState = some h ∧ b ≠ h ∧
        walkD c3WState.objects 3 b h = .ok false)) ∧
    (∀ st', delete_branch c3WState "feature" false 3 = .ok st' →
      st' = { c3WState with refs := eraseKey c3WState.refs "refs/heads/feature" }) :=
  c3_delete_branch c3WState "feature" "Bc" 3 rfl

theorem write_commit_fresh (hash : Bytes → String) (objs : ObjStore) (c : Commit)
    (hfr : lookupObj objs (hash (commitHeader ++ strBytes (serializeCommit c))) = none) :
    (write_commit hash objs c).2 =
      (hash (commitHeader ++ strBytes (serializeCommit c)), .commit c) :: objs := by
  unfold write_commit lookupObj
  have h2 : alookup objs (hash (commitHeader ++ strBytes (serializeCommit c))) = none := hfr
  simp [h2]

theorem read_commit_cons (oid : String) (c : Commit) (objs : ObjStore) :
    read_commit ((oid, .commit c) :: objs) oid = some c := by
  simp [read_commit, lookupObj, alookup]

theorem stripOpt_of_clean {s : String} (hws : pyStrip s = s) (hne : s ≠ "") :
    stripOpt s = some s := by
  unfold stripOpt
  rw [hws, if_neg hne]

theorem head_oid_of (st2 : SidState) (oid : String)
    (hh : alookup st2.refs (head_ref st2) = some oid)
    (hws : pyStrip oid = oid) (hne : oid ≠ "") : head_oid st2 = some oid := by
  unfold head_oid read_ref
  simp only [hh]
  exact stripOpt_of_clean hws hne

/-- C6: Non-fast-forward merge — with a non-empty target tip `target`,
HEAD resolving to `h`, and the walk completing without finding `h` on the
tip's first-parent chain, `merge` writes a commit whose tree is the
current index snapshot, whose `parent` is `h` and `parent2` is `target`,
and advances the ref HEAD points to onto it (stated for a digest that is
fresh at the new commit's oid). -/
theorem c6_merge_commit (hash : Bytes → String) (now fuel : Nat) (st : SidState)
    (branch content target h : String)
    (href : alookup st.refs ("refs/heads/" ++ branch) = some content)
    (ht : stripOpt content = some target)
    (hh : head_oid st = some h)
    (hwalk : walk2 st.objects fuel (some h) target = .ok false)
    (hfresh : lookupObj st.objects (mergeOid hash now st branch target) = none) :
    merge hash now fuel st branch =
      .ok { st with
            objects := (mergeOid hash now st branch target,
                        .commit (mergeCommit now st branch target)) :: st.objects
            refs := insertKV st.refs (head_ref st) (mergeOid hash now st branch target) } ∧
    read_commit ((mergeOid hash now st branch target,
                  .commit (mergeCommit now st branch target)) :: st.objects)
        (mergeOid hash now st branch target) = some (mergeCommit now st branch target) ∧
    (mergeCommit now st branch target).tree = st.index ∧
    (mergeCommit now st branch target).parent = some h ∧
    (mergeCommit now st branch target).parent2 = some target := by
  refine ⟨?_, read_commit_cons _ _ _, rfl, hh, rfl⟩
  unfold merge
  simp only [href, ht, hh, hwalk]
  rw [show (write_commit hash st.objects (mergeCommit now st branch target)).2 =
        (mergeOid hash now st branch target,
         Obj.commit (mergeCommit now st branch target)) :: st.objects from
      write_commit_fresh hash st.objects (mergeCommit now st branch target) hfresh]
  rfl

/-- C6 witness: branches `A` (HEAD, at `Y`) and `B` (at `Z`) diverging
from root `X`, with one staged file; the merge commit carries the index
snapshot and both tips as parents. -/
theorem c6_merge_commit_witness :
    merge demoHash 9 5 c6State "B" =
      .ok { c6State with
            objects := (mergeOid demoHash 9 c6State "B" "Z",
                        .commit (mergeCommit 9 c6State "B" "Z")) :: c6State.objects
            refs := insertKV c6State.refs (head_ref c6State) (mergeOid demoHash 9 c6State "B" "Z") } ∧
    read_commit ((mergeOid demoHash 9 c6State "B" "Z",
                  .commit (mergeCommit 9 c6State "B" "Z")) :: c6State.objects)
        (mergeOid demoHash 9 c6State "B" "Z") = some (mergeCommit 9 c6State "B" "Z") ∧
    (mergeCommit 9 c6State "B" "Z").tree = c6State.index ∧
    (mergeCommit 9 c6State "B" "Z").parent = some "Y" ∧
    (mergeCommit 9 c6State "B" "Z").parent2 = some "Z" :=
  c6_merge_commit demoHash 9 5 c6State "B" "Z" "Z" "Y" rfl rfl rfl rfl (by decide)

/-- C7: `commit` writes a commit whose tree is the index snapshot and
whose parent is the pre-call HEAD resolution, advances the ref HEAD
points to, clears the index and returns the new oid; consequently a
second `commit` has the first one's oid as its `parent`, and HEAD then
resolves to the second commit (stated for a digest that is fresh at both
new oids and produces non-empty whitespace-free hex names, as `hexdigest`
does). -/
theorem c7_commit_chain (hash : Bytes → String) (t1 t2 : Nat) (st : SidState)
    (m1 m2 : String) (a1 a2 : Option String)
    (hfresh1 : lookupObj st.objects (commitOid hash t1 st m1 a1) = none)
    (hws1 : pyStrip (commitOid hash t1 st m1 a1) = commitOid hash t1 st m1 a1)
    (hne1 : commitOid hash t1 st m1 a1 ≠ "")
    (hfresh2 : lookupObj (commit hash t1 st m1 a1).2.objects
        (commitOid hash t2 (commit hash t1 st m1 a1).2 m2 a2) = none)
    (hws2 : pyStrip (commitOid hash t2 (commit hash t1 st m1 a1).2 m2 a2) =
        commitOid hash t2 (commit hash t1 st m1 a1).2 m2 a2)
    (hne2 : commitOid hash t2 (commit hash t1 st m1 a1).2 m2 a2 ≠ "") :
    (commit hash t1 st m1 a1).1 = commitOid hash t1 st m1 a1 ∧
    read_commit (commit hash t1 st m1 a1).2.objects (commitOid hash t1 st m1 a1) =
      some (commitObj t1 st m1 a1) ∧
    (commitObj t1 st m1 a1).tree = st.index ∧
    (commitObj t1 st m1 a1).parent = head_oid st ∧
    alookup (commit hash t1 st m1 a1).2.refs (head_ref st) = some (commitOid hash t1 st m1 a1) ∧
    (commit hash t1 st m1 a1).2.index = [] ∧
    (commitObj t2 (commit hash t1 st m1 a1).2 m2 a2).parent = some (commitOid hash t1 st m1 a1) ∧
    read_commit (commit hash t2 (commit hash t1 st m1 a1).2 m2 a2).2.objects
        (commitOid hash t2 (commit hash t1 st m1 a1).2 m2 a2) =
      some (commitObj t2 (commit hash t1 st m1 a1).2 m2 a2) ∧
    head_oid (commit hash t2 (commit hash t1 st m1 a1).2 m2 a2).2 =
      some (commitOid hash t2 (commit hash t1 st m1 a1).2 m2 a2) := by
  have hobj1 : (commit hash t1 st m1 a1).2.objects =
      (commitOid hash t1 st m1 a1, Obj.commit (commitObj t1 st m1 a1)) :: st.objects :=
    write_commit_fresh hash st.objects (commitObj t1 st m1 a1) hfresh1
  have hread1 : read_commit (commit hash t1 st m1 a1).2.objects (commitOid hash t1 st m1 a1) =
      some (commitObj t1 st m1 a1) := by
    rw [hobj1]; exact read_commit_cons _ _ _
  have hro1 : alookup (commit hash t1 st m1 a1).2.refs (head_ref st) =
      some (commitOid hash t1 st m1 a1) := by
    show alookup (insertKV st.refs (head_ref st) (commitOid hash t1 st m1 a1)) (head_ref st) = _
    rw [alookup_insertKV, if_pos rfl]
  have hho1 : head_oid (commit hash t1 st m1 a1).2 = some (commitOid hash t1 st m1 a1) :=
    head_oid_of _ _ hro1 hws1 hne1
  have hobj2 : (commit hash t2 (commit hash t1 st m1 a1).2 m2 a2).2.objects =
      (commitOid hash t2 (commit hash t1 st m1 a1).2 m2 a2,
       Obj.commit (commitObj t2 (commit hash t1 st m1 a1).2 m2 a2)) ::
        (commit hash t1 st m1 a1).2.objects :=
    write_commit_fresh hash _ _ hfresh2
  have hread2 : read_commit (commit hash t2 (commit hash t1 st m1 a1).2 m2 a2).2.objects
      (commitOid hash t2 (commit hash t1 st m1 a1).2 m2 a2) =
      some (commitObj t2 (commit hash t1 st m1 a1).2 m2 a2) := by
    rw [hobj2]; exact read_commit_cons _ _ _
  have hro2 : alookup (commit hash t2 (commit hash t1 st m1 a1).2 m2 a2).2.refs
      (head_ref (commit hash t1 st m1 a1).2) =
      some (commitOid hash t2 (commit hash t1 st m1 a1).2 m2 a2) := by
    show alookup (insertKV (commit hash t1 st m1 a1).2.refs
        (head_ref (commit hash t1 st m1 a1).2)
        (commitOid hash t2 (commit hash t1 st m1 a1).2 m2 a2))
        (head_ref (commit hash t1 st m1 a1).2) = _
    rw [alookup_insertKV, if_pos rfl]
  have hho2 : head_oid (commit hash t2 (commit hash t1 st m1 a1).2 m2 a2).2 =
      some (commitOid hash t2 (commit hash t1 st m1 a1).2 m2 a2) :=
    head_oid_of _ _ hro2 hws2 hne2
  exact ⟨rfl, hread1, rfl, rfl, hro1, rfl, (by show head_oid (commit hash t1 st m1 a1).2 = _; exact hho1), hread2, hho2⟩

/-- C7 witness: two consecutive commits on a fresh repository with one
staged file; all chain facts evaluated with the demo digest. -/
theorem c7_commit_chain_witness :
    (commit demoHash 1 c7State "first" none).1 = commitOid demoHash 1 c7State "first" none ∧
    read_commit (commit demoHash 1 c7State "first" none).2.objects
        (commitOid demoHash 1 c7State "first" none) = some (commitObj 1 c7State "first" none) ∧
    (commitObj 1 c7State "first" none).tree = c7State.index ∧
    (commitObj 1 c7State "first" none).parent = head_oid c7State ∧
    alookup (commit demoHash 1 c7State "first" none).2.refs (head_ref c7State) =
      some (commitOid demoHash 1 c7State "first" none) ∧
    (commit demoHash 1 c7State "first" none).2.index = [] ∧
    (commitObj 2 (commit demoHash 1 c7State "first" none).2 "second" none).parent =
      some (commitOid demoHash 1 c7State "first" none) ∧
    read_commit (commit demoHash 2 (commit demoHash 1 c7State "first" none).2 "second" none).2.objects
        (commitOid demoHash 2 (commit demoHash 1 c7State "first" none).2 "second" none) =
      some (commitObj 2 (commit demoHash 1 c7State "first" none).2 "second" none) ∧
    head_oid (commit demoHash 2 (commit demoHash 1 c7State "first" none).2 "second" none).2 =
      some (commitOid demoHash 2 (commit demoHash 1 c7State "first" none).2 "second" none) :=
  c7_commit_chain demoHash 1 2 c7State "first" "second" none none
    rfl (by decide) (by decide) (by decide) (by decide) (by decide)

theorem snapWd_tree (hash : Bytes → String) :
    ∀ (wd : List (String × Bytes)) (objs : ObjStore),
      (snapWd hash objs wd).1 = wd.map (fun pd => (pd.1, hash (blobHeader ++ pd.2))) := by
  intro wd
  induction wd with
  | nil => intro objs; rfl
  | cons pd rest ih =>
    obtain ⟨rel, data⟩ := pd
    intro objs
    simp only [snapWd, List.map_cons]
    rw [ih]
    rfl

theorem read_blob_cons_ne {oid oid' : String} (o : Obj) (objs : ObjStore)
    (h : ¬ oid = oid') : read_blob ((oid, o) :: objs) oid' = read_blob objs oid' := by
  simp [read_blob, lookupObj, alookup, h]

theorem applyTree_pointwise (objs : ObjStore) (wd0 : List (String × Bytes)) :
    ∀ (entries : List (String × String)) (wd : List (String × Bytes)),
      (∀ p, alookup wd p = alookup wd0 p) →
      (∀ rel blob, (rel, blob) ∈ entries →
        ∃ data, read_blob objs blob = some data ∧ alookup wd0 rel = some data) →
      ∃ wd', applyTree objs wd entries = .ok wd' ∧ ∀ p, alookup wd' p = alookup wd0 p := by
  intro entries
  induction entries with
  | nil => intro wd hwd _; exact ⟨wd, rfl, hwd⟩
  | cons e rest ih =>
    obtain ⟨rel, blob⟩ := e
    intro wd hwd hent
    obtain ⟨data, hrb, hw0⟩ := hent rel blob (List.mem_cons_self _ _)
    have hwr : alookup wd rel = some data := by rw [hwd rel]; exact hw0
    have hpw : ∀ p, alookup (insertKV wd rel data) p = alookup wd0 p := by
      intro p; rw [insertKV_of_mem hwr p, hwd p]
    obtain ⟨wd', happ, hfin⟩ := ih (insertKV wd rel data) hpw
      (fun r b hm => hent r b (List.mem_cons_of_mem _ hm))
    refine ⟨wd', ?_, hfin⟩
    simp only [applyTree, hrb]
    exact happ

theorem maxSlot_append_max (i : Nat) (k c : String) :
    ∀ (l : List (Nat × String × String)), (∀ p ∈ l, p.1 < i) →
      maxSlot (l ++ [(i, k, c)]) = some (i, k, c) := by
  intro l
  induction l with
  | nil => intro _; rfl
  | cons p rest ih =>
    intro hlt
    have hi := hlt p (List.mem_cons_self _ _)
    simp only [List.cons_append, List.append_eq, maxSlot]
    rw [ih (fun q hq => hlt q (List.mem_cons_of_mem _ hq))]
    simp only []
    rw [if_pos (le_of_lt hi)]

theorem stashKey_take (i : Nat) : (stashKey i).data.take 11 = "refs/stash/".data := by
  have hlen : ("refs/stash/".data).length = 11 := rfl
  unfold stashKey
  rw [String.data_append, ← hlen]
  exact List.take_left _ _

theorem stashKey_drop (i : Nat) : (stashKey i).data.drop 11 = (toString i).data := by
  have hlen : ("refs/stash/".data).length = 11 := rfl
  unfold stashKey
  rw [String.data_append, ← hlen]
  exact List.drop_left _ _

theorem stashSlots_singleton (i : Nat) (c : String)
    (hts : parseNat? (toString i) = some i) :
    stashSlots [(stashKey i, c)] = [(i, stashKey i, c)] := by
  unfold stashSlots
  simp only [List.filterMap]
  rw [if_pos (stashKey_take i), stashKey_drop i]
  rw [show String.mk (toString i).data = toString i from rfl, hts]
  rfl

theorem stashSlots_append (l l' : List (String × String)) :
    stashSlots (l ++ l') = stashSlots l ++ stashSlots l' := by
  unfold stashSlots
  exact List.filterMap_append _ _ _

/-- C10: Stash round trip — saving a stash and immediately popping it
restores every working file's bytes (pop writes the popped tree out
without deleting other files), deletes the popped slot, and leaves the
refs exactly as before the save, so the slot no longer appears in the
stash list. Stated under the reachable-state side conditions: distinct
working paths, the chosen slot file absent (with numeric name), every
existing slot numbered below it, and a digest that is fresh at the
snapshot commit's oid, whitespace-free there, and collision-free on the
snapshotted blobs. -/
theorem c10_stash_round_trip (hash : Bytes → String) (now : Nat) (st : SidState)
    (hnd : (st.workdir.map Prod.fst).Nodup)
    (hfree : alookup st.refs (stashKey (freeSlot st.refs)) = none)
    (hts : parseNat? (toString (freeSlot st.refs)) = some (freeSlot st.refs))
    (hslots : ∀ p ∈ stashSlots st.refs, p.1 < freeSlot st.refs)
    (hco : lookupObj (snapWd hash st.objects st.workdir).2 (stashOid hash now st) = none)
    (hstrip : pyStrip (stashOid hash now st) = stashOid hash now st)
    (hblob : ∀ rel data, (rel, data) ∈ st.workdir →
      read_blob (snapWd hash st.objects st.workdir).2 (hash (blobHeader ++ data)) = some data) :
    ∃ st'', stash_pop (stash hash now st) = .ok st'' ∧
      (∀ p, alookup st''.workdir p = alookup st.workdir p) ∧
      st''.refs = st.refs ∧
      alookup st''.refs (stashKey (freeSlot st.refs)) = none := by
  have hrefs1 : (stash hash now st).refs =
      st.refs ++ [(stashKey (freeSlot st.refs), stashOid hash now st)] :=
    insertKV_of_none _ hfree
  have hobjs1 : (stash hash now st).objects =
      (stashOid hash now st, Obj.commit (stashCommit hash now st)) ::
        (snapWd hash st.objects st.workdir).2 :=
    write_commit_fresh hash _ _ hco
  have hslots1 : stashSlots (stash hash now st).refs =
      stashSlots st.refs ++
        [(freeSlot st.refs, stashKey (freeSlot st.refs), stashOid hash now st)] := by
    rw [hrefs1, stashSlots_append, stashSlots_singleton _ _ hts]
  have hmax : maxSlot (stashSlots (stash hash now st).refs) =
      some (freeSlot st.refs, stashKey (freeSlot st.refs), stashOid hash now st) := by
    rw [hslots1]
    exact maxSlot_append_max _ _ _ _ hslots
  have htree : (stashCommit hash now st).tree =
      st.workdir.map (fun pd => (pd.1, hash (blobHeader ++ pd.2))) :=
    snapWd_tree hash st.workdir st.objects
  have hent : ∀ rel blob, (rel, blob) ∈ (stashCommit hash now st).tree →
      ∃ data, read_blob (stash hash now st).objects blob = some data ∧
        alookup st.workdir rel = some data := by
    intro rel blob hm
    rw [htree] at hm
    obtain ⟨pd, hpd, heq⟩ := List.mem_map.mp hm
    obtain ⟨prel, pdata⟩ := pd
    have h1 : prel = rel := congrArg Prod.fst heq
    have h2 : hash (blobHeader ++ pdata) = blob := congrArg Prod.snd heq
    subst h1
    subst h2
    refine ⟨pdata, ?_, alookup_of_mem_nodup hnd hpd⟩
    rw [hobjs1]
    have hne : ¬ stashOid hash now st = hash (blobHeader ++ pdata) := by
      intro he
      have hb := hblob _ _ hpd
      rw [← he] at hb
      have hco' : alookup (snapWd hash st.objects st.workdir).2 (stashOid hash now st) = none := hco
      unfold read_blob lookupObj at hb
      rw [hco'] at hb
      cases hb
    rw [read_blob_cons_ne _ _ hne]
    exact hblob _ _ hpd
  obtain ⟨wd', happ, hpw⟩ := applyTree_pointwise (stash hash now st).objects st.workdir
      (stashCommit hash now st).tree st.workdir (fun p => rfl) hent
  have hread : read_commit (stash hash now st).objects (stashOid hash now st) =
      some (stashCommit hash now st) := by
    rw [hobjs1]; exact read_commit_cons _ _ _
  have hr2 : eraseKey (stash hash now st).refs (stashKey (freeSlot st.refs)) = st.refs := by
    rw [hrefs1]
    exact eraseKey_append_self _ hfree
  refine ⟨{ stash hash now st with
            workdir := wd'
            refs := eraseKey (stash hash now st).refs (stashKey (freeSlot st.refs)) },
          ?_, hpw, hr2, ?_⟩
  · unfold stash_pop
    simp only [hmax]
    rw [hstrip]
    simp only [hread]
    have hwd : (stash hash now st).workdir = st.workdir := rfl
    simp only [hwd, happ]
  · show alookup (eraseKey (stash hash now st).refs (stashKey (freeSlot st.refs)))
        (stashKey (freeSlot st.refs)) = none
    rw [hr2]
    exact hfree

/-- C10 witness: one working file, empty stash area; save then pop with
all side conditions checked concretely. -/
theorem c10_stash_round_trip_witness :
    ∃ st'', stash_pop (stash demoHash 7 c10State) = .ok st'' ∧
      (∀ p, alookup st''.workdir p = alookup c10State.workdir p) ∧
      st''.refs = c10State.refs ∧
      alookup st''.refs (stashKey (freeSlot c10State.refs)) = none :=
  c10_stash_round_trip demoHash 7 c10State (by decide) rfl (by decide) (by decide)
    (by decide) (by decide)
    (by
      intro rel data hm
      have hm' : (rel, data) = ("x.txt", ([50] : Bytes)) := List.mem_singleton.mp hm
      have h1 : rel = "x.txt" := congrArg Prod.fst hm'
      have h2 : data = [50] := congrArg Prod.snd hm'
      subst h1
      subst h2
      decide)
